import Mathlib

/-!
Verification of the go-mantis-shrimp cron/watch core.

Shallow embedding of:
- the Schedule entity and the Redis windowed search
  (cron/schedule/schedule.go, cron/storage/redis.go, cron/storage/search.lua);
- Redis hash encoding/decoding of Schedules (cron/storage/redis.go);
- ID generation for Create (cron/storage/redis.go, watches/storage/redis.go);
- the health-check Watch evaluation (watches/health_check/watch.go);
- the WatchWrapper tagged encode/decode (watches/wrapper/wrapper.go);
- the trigger SDK call (watches/sdk/sdk.go).

Instants are modelled as integer nanosecond timestamps (Go time.Time.UnixNano)
and durations as integer nanosecond counts (time.Duration.Nanoseconds()).
-/

namespace MantisShrimp

/-- Schedule entity. Fields are those of the Schedule struct consumed by
cron/storage/redis.go: the partial declaration in cron/schedule/schedule.go
(Start, Stop, Interval, WatchesIDs, Enabled) together with the fields that
toHashFields/fromHashFields and Create access on it (ID, Last, CreatedAt,
UpdatedAt). Optional Go pointer fields (nil = unset) become Option. -/
structure Schedule where
  id : Int
  start : Option Int
  stop : Option Int
  interval : Int
  watchesIDs : List Int
  enabled : Bool
  last : Option Int
  createdAt : Option Int
  updatedAt : Option Int
deriving DecidableEq

/-- timeToHashField (cron/storage/redis.go): a nil time is stored with score 0
in the sorted-set indices, otherwise its UnixNano value. -/
def timeToHashField (t : Option Int) : Int :=
  t.getD 0

/-- First range query of search.lua:
ZRANGEBYSCORE start_index -inf (T2 — members whose start score is strictly
below the window end (the "(" prefix makes the bound exclusive). The store is
modelled as the list of Schedules whose ids are indexed; scores come from
timeToHashField as written by Redis.set. -/
def startIndexQuery (store : List Schedule) (t2 : Int) : List Schedule :=
  store.filter (fun s => decide (timeToHashField s.start < t2))

/-- Second range query of search.lua:
ZRANGEBYSCORE stop_index T1 +inf — members whose stop score is at least the
window start (inclusive bound). -/
def stopIndexQuery (store : List Schedule) (t1 : Int) : List Schedule :=
  store.filter (fun s => decide (t1 ≤ timeToHashField s.stop))

/-- Union formation in search.lua: all start-side candidates are inserted into
the schedules table keyed by id, then each stop-side candidate is inserted only
if no entry with its id is already present. -/
def scheduleUnion (startSide stopSide : List Schedule) : List Schedule :=
  startSide ++ stopSide.filter (fun s => !(startSide.any (fun t => t.id == s.id)))

/-- Filter step of search.lua: a candidate is removed when
enabled == "0" or (last ~= nil and last + interval >= stop); it is kept
otherwise. (Redis stores the Go bool Enabled as "1"/"0" on the wire, which is
what the Lua comparison against "0" and boolFromHashField rely on.) -/
def luaKeep (s : Schedule) (t2 : Int) : Bool :=
  s.enabled &&
    (match s.last with
     | none => true
     | some l => decide (l + s.interval < t2))

/-- Redis.Search (cron/storage/redis.go) evaluated together with search.lua:
T1 = now(), T2 = T1 + pollInterval; the script unions the two range queries and
filters out disabled or already-covered Schedules. -/
def searchLua (store : List Schedule) (t1 t2 : Int) : List Schedule :=
  (scheduleUnion (startIndexQuery store t2) (stopIndexQuery store t1)).filter
    (fun s => luaKeep s t2)

/-- Modelled from the spec (§3): the due-invariant the specification claims
Search decides. This definition follows the spec words, for comparison with
searchLua which is translated from the source. -/
def dueInvariantSpec (s : Schedule) (t1 t2 : Int) : Bool :=
  s.enabled &&
    (match s.last with
     | none => true
     | some l => decide (l + s.interval < t2)) &&
    (match s.start with
     | none => true
     | some st => decide (st ≤ t2)) &&
    (match s.stop with
     | none => true
     | some sp => decide (t1 ≤ sp))

/-- A Schedule whose applicability window lies entirely after the polling
window [100, 200): it starts at 250 and stops at 300. -/
def futureSchedule : Schedule :=
  { id := 1, start := some 250, stop := some 300, interval := 30,
    watchesIDs := [7], enabled := true, last := none,
    createdAt := none, updatedAt := none }

/-- A due Schedule (start = 200 = T2, no stop) that the stop-side range query
cannot see because its unset stop is indexed with score 0. -/
def noStopSchedule : Schedule :=
  { id := 1, start := some 200, stop := none, interval := 30,
    watchesIDs := [7], enabled := true, last := none,
    createdAt := none, updatedAt := none }

/-- The worked example of spec §8 with last = 190. -/
def exampleSchedule190 : Schedule :=
  { id := 1, start := some 50, stop := some 250, interval := 30,
    watchesIDs := [7], enabled := true, last := some 190,
    createdAt := none, updatedAt := none }

/-- The worked example of spec §8 with last = 160 (160 + 30 = 190 < 200). -/
def exampleSchedule160 : Schedule :=
  { id := 1, start := some 50, stop := some 250, interval := 30,
    watchesIDs := [7], enabled := true, last := some 160,
    createdAt := none, updatedAt := none }

/-- A disabled Schedule used to exercise the enabled filter. -/
def disabledSchedule : Schedule :=
  { id := 1, start := some 50, stop := some 250, interval := 30,
    watchesIDs := [7], enabled := false, last := none,
    createdAt := none, updatedAt := none }

/-- A simple enabled Schedule with no boundaries and no last trigger. -/
def basicSchedule : Schedule :=
  { id := 1, start := none, stop := none, interval := 50,
    watchesIDs := [7], enabled := true, last := none,
    createdAt := none, updatedAt := none }

/-- Maximum of the id index, mirroring what
ZREVRANGE schedules 0 0 WITHSCORES observes: the highest score present in the
sorted set (scores are the Schedule ids written by ZADD in Redis.set), or
nothing when the index is empty. -/
def indexMax : List Int → Option Int
  | [] => none
  | i :: rest =>
    match indexMax rest with
    | none => some i
    | some m => some (max i m)

/-- Redis.generateID (cron/storage/redis.go; watches/storage/redis.go is
identical up to entity names): if the id index is empty the new id is 1,
otherwise it is the highest indexed id plus one. -/
def generateID (index : List Int) : Int :=
  match indexMax index with
  | none => 1
  | some m => m + 1

/-- One Create call as far as ids are concerned: generate the id from the
index, then add it to the index (the ZADD in Redis.set). -/
def createStep (index : List Int) : Int × List Int :=
  (generateID index, generateID index :: index)

/-- The interleaving of two concurrent Create calls in which both ZREVRANGE
reads of the id index happen before either ZADD write: each call computes its
id from the same index snapshot. -/
def concurrentCreateIDs (index : List Int) : Int × Int :=
  (generateID index, generateID index)

/-- Schedule.Do (cron/schedule/schedule.go): afterStart is
start == nil || now.After(*start), i.e. now strictly after start. -/
def afterStart (s : Schedule) (now : Int) : Bool :=
  match s.start with
  | none => true
  | some t => decide (t < now)

/-- Schedule.Do (cron/schedule/schedule.go): beforeEnd is
stop == nil || now.Before(*stop), i.e. now strictly before stop. -/
def beforeEnd (s : Schedule) (now : Int) : Bool :=
  match s.stop with
  | none => true
  | some t => decide (now < t)

/-- Schedule.Do (cron/schedule/schedule.go): return the WatchesIDs when the
current time is inside the start/stop frame, nil otherwise. -/
def scheduleDo (s : Schedule) (now : Int) : List Int :=
  if afterStart s now && beforeEnd s now then s.watchesIDs else []

/-- A disabled Schedule whose window [50, 250] contains the probe time 100. -/
def disabledInWindow : Schedule :=
  { id := 1, start := some 50, stop := some 250, interval := 30,
    watchesIDs := [7], enabled := false, last := none,
    createdAt := none, updatedAt := none }

/-- An enabled Schedule with window [50, 250] and one Watch. -/
def windowSchedule : Schedule :=
  { id := 2, start := some 50, stop := some 250, interval := 30,
    watchesIDs := [7], enabled := true, last := none,
    createdAt := none, updatedAt := none }

/-! Redis hash encoding of a Schedule (cron/storage/redis.go). Hash fields
travel as strings: Go ints are rendered in decimal by the Redis client and
Go bools as "1"/"0" (radix.v2 wire encoding, which boolFromHashField and the
Lua script rely on). -/

/-- Decimal digits to a natural number, failing on any non-digit
(the digit scan inside Go strconv.ParseInt). -/
def digitsToNat : List Char → Option Nat
  | [] => some 0
  | c :: rest =>
    if c.isDigit then
      (digitsToNat rest).map (fun n => (c.toNat - 48) * 10 ^ rest.length + n)
    else
      none

/-- strconv.Atoi / strconv.ParseInt base 10: optional sign, then at least one
digit; the empty string and a bare sign are errors. Overflow of int64 is not
modelled. -/
def goAtoi (str : String) : Option Int :=
  match str.data with
  | [] => none
  | '+' :: rest =>
    if rest.isEmpty then none else (digitsToNat rest).map (fun n => (n : Int))
  | '-' :: rest =>
    if rest.isEmpty then none else (digitsToNat rest).map (fun n => -(n : Int))
  | ds => (digitsToNat ds).map (fun n => (n : Int))

/-- idsToHashField (cron/storage/redis.go): strconv.Itoa each id and
strings.Join with ",". An empty ids list yields the empty string. -/
def idsToHashField (ids : List Int) : String :=
  String.intercalate "," (ids.map toString)

/-- strings.Split on ",": the empty string splits into one empty piece. -/
def splitOnComma (cs : List Char) : List (List Char) :=
  match cs with
  | [] => [[]]
  | c :: rest =>
    if c = ',' then
      [] :: splitOnComma rest
    else
      match splitOnComma rest with
      | [] => [[c]]
      | piece :: pieces => (c :: piece) :: pieces

/-- The Atoi loop of idsFromHashField over the split pieces: the first failing
conversion aborts the whole decode. -/
def atoiAll : List (List Char) → Option (List Int)
  | [] => some []
  | piece :: pieces =>
    match goAtoi (String.mk piece) with
    | none => none
    | some i =>
      match atoiAll pieces with
      | none => none
      | some is => some (i :: is)

/-- idsFromHashField (cron/storage/redis.go): strings.Split the stored value on
"," and strconv.Atoi each piece. -/
def idsFromHashField (s : String) : Option (List Int) :=
  atoiAll (splitOnComma s.data)

/-- durationFromHashField (cron/storage/redis.go): strconv.ParseInt base 10 of
the stored nanosecond count. -/
def durationFromHashField (s : String) : Option Int :=
  goAtoi s

/-- boolFromHashField (cron/storage/redis.go): "1" is true, "0" is false,
anything else is a decode error. -/
def boolFromHashField (s : String) : Option Bool :=
  if s = "1" then some true
  else if s = "0" then some false
  else none

/-- timeFromHashField (cron/storage/redis.go): parse the nanosecond count, then
time.Unix(count / 1e9, count % 1e9); Go integer division truncates toward zero
and time.Unix normalises, so the instant sec * 1e9 + nsec is recovered. -/
def timeFromHashField (s : String) : Option Int :=
  (goAtoi s).map
    (fun i => (Int.tdiv i 1000000000) * 1000000000 + Int.tmod i 1000000000)

/-- toHashFields (cron/storage/redis.go): the flattened key/value field list
stored by HMSET. The mandatory watches_ids, interval and enabled fields come
first; each optional instant is appended only when set. The id is not stored as
a field. -/
def toHashFields (s : Schedule) : List String :=
  ["watches_ids", idsToHashField s.watchesIDs,
   "interval", toString s.interval,
   "enabled", if s.enabled then "1" else "0"] ++
  (match s.start with | none => [] | some t => ["start", toString t]) ++
  (match s.stop with | none => [] | some t => ["stop", toString t]) ++
  (match s.last with | none => [] | some t => ["last", toString t]) ++
  (match s.createdAt with | none => [] | some t => ["created_at", toString t]) ++
  (match s.updatedAt with | none => [] | some t => ["updated_at", toString t])

/-- The pairing loop at the top of fromHashFields: consume the flat list two at
a time into key/value pairs (a trailing dangling key is ignored, as in the Go
loop that only writes on every second element). -/
def pairUp : List String → List (String × String)
  | [] => []
  | [_] => []
  | k :: v :: rest => (k, v) :: pairUp rest

/-- Go map write semantics for kvHash: the last write for a key wins. -/
def kvGet? (kv : List (String × String)) (k : String) : Option String :=
  (kv.reverse.find? (fun p => p.1 == k)).map (fun p => p.2)

/-- Go map read of a missing key yields the zero value, the empty string. -/
def kvGet (kv : List (String × String)) (k : String) : String :=
  (kvGet? kv k).getD ""

/-- Decode one optional instant field of fromHashFields: absent keys leave the
field nil, present keys must parse. -/
def optionalTimeField (kv : List (String × String)) (k : String) :
    Option (Option Int) :=
  match kvGet? kv k with
  | none => some none
  | some v => (timeFromHashField v).map some

/-- fromHashFields (cron/storage/redis.go): rebuild a Schedule from the flat
hash field list; any field decode failure aborts with an error (modelled as
none). The id defaults to the Go zero value 0 unless an id field is present
(the Lua script appends one to search results). -/
def fromHashFields (hash : List String) : Option Schedule :=
  let kv := pairUp hash
  (match kvGet? kv "id" with
   | none => some (0 : Int)
   | some v => goAtoi v).bind fun idv =>
  (idsFromHashField (kvGet kv "watches_ids")).bind fun wids =>
  (durationFromHashField (kvGet kv "interval")).bind fun interval =>
  (boolFromHashField (kvGet kv "enabled")).bind fun enabled =>
  (optionalTimeField kv "start").bind fun start =>
  (optionalTimeField kv "stop").bind fun stop =>
  (optionalTimeField kv "last").bind fun last =>
  (optionalTimeField kv "created_at").bind fun createdAt =>
  (optionalTimeField kv "updated_at").bind fun updatedAt =>
  some { id := idv, start := start, stop := stop, interval := interval,
         watchesIDs := wids, enabled := enabled, last := last,
         createdAt := createdAt, updatedAt := updatedAt }

/-- A Schedule with an empty WatchesIDs list, which the data model permits. -/
def emptyWatchesSchedule : Schedule :=
  { id := 0, start := none, stop := none, interval := 1000000000,
    watchesIDs := [], enabled := true, last := none,
    createdAt := none, updatedAt := none }

/-- A fully populated Schedule with two Watches. -/
def richSchedule : Schedule :=
  { id := 5, start := some 50, stop := some 250, interval := 30,
    watchesIDs := [7, 9], enabled := true, last := some 190,
    createdAt := some 11, updatedAt := some 12 }

/-! Health-check Watch (watches/health_check/watch.go). -/

/-- Result of the data-gathering step (watches/health_check/watch.go): a status
string, one of success / inaccessible / status_mismatch. -/
structure Result where
  status : String
deriving DecidableEq

/-- The two Condition implementations of watches/health_check/watch.go:
ConditionSuccess and ConditionFailure. -/
inductive Condition where
  | success
  | failure
deriving DecidableEq

/-- ConditionSuccess.Do / ConditionFailure.Do: success is met exactly when the
Result status is "success"; failure is met on any other status. -/
def conditionDo : Condition → Result → Bool
  | .success, r => r.status == "success"
  | .failure, r => r.status != "success"

/-- Watch.evaluate: walk the Conditions, breaking out on the first one that is
not met; allOk stays true over an empty list. -/
def evaluate : List Condition → Result → Bool
  | [], _ => true
  | c :: rest, r => if conditionDo c r then evaluate rest r else false

/-- Health-check Watch fields (watches/health_check/watch.go plus the embedded
WatchBase of watches/common/common.go). The unexported result field and the
legacy embedded Actions objects are not externally observable and are omitted.
The timeout is a nanosecond count. -/
structure HealthWatch where
  name : String
  actionsIds : List Int
  url : String
  statuses : List Int
  timeout : Int
  conditions : List Condition
deriving DecidableEq

/-- Watch.data (watches/health_check/watch.go), with the HTTP outcome as an
explicit input: none models a failed GET (inaccessible), some code carries the
numeric response status, compared against the configured Statuses list. -/
def dataResult (httpStatus : Option Int) (statuses : List Int) : Result :=
  match httpStatus with
  | none => { status := "inaccessible" }
  | some code =>
    if statuses.any (fun st => st == code) then
      { status := "success" }
    else
      { status := "status_mismatch" }

/-- Watch.Do (watches/health_check/watch.go): compute the Result, evaluate the
Conditions, and return ActionsIds on success or the empty list on failure. -/
def watchDo (w : HealthWatch) (httpStatus : Option Int) : List Int :=
  if evaluate w.conditions (dataResult httpStatus w.statuses) then
    w.actionsIds
  else
    []

/-- A health-check Watch expecting status 200 with one success Condition. -/
def demoWatch : HealthWatch :=
  { name := "demo", actionsIds := [3], url := "http://example.com",
    statuses := [200], timeout := 1000000000, conditions := [.success] }

/-! WatchWrapper (watches/wrapper/wrapper.go). The JSON envelope read by
WatchWrapper.UnmarshalJSON is modelled by the presence or absence of its two
first-level raw-message fields; the health_check payload is modelled by the
optional fields its custom UnmarshalJSON inspects. -/

/-- The JSON tag each Condition marshals to (ConditionSuccess.MarshalJSON and
ConditionFailure.MarshalJSON emit a single type field). -/
def conditionTag : Condition → String
  | .success => "success"
  | .failure => "failure"

/-- The Condition switch inside Watch.UnmarshalJSON: tag "success" or
"failure", anything else is an unknown Condition type error. -/
def conditionFromTag (t : String) : Option Condition :=
  if t = "success" then some .success
  else if t = "failure" then some .failure
  else none

/-- The Condition decoding loop of Watch.UnmarshalJSON: the first unknown tag
aborts the decode. -/
def decodeConditionTags : List String → Option (List Condition)
  | [] => some []
  | t :: rest =>
    match conditionFromTag t with
    | none => none
    | some c =>
      match decodeConditionTags rest with
      | none => none
      | some cs => some (c :: cs)

/-- The first-level JSON fields of a marshalled health-check Watch that its
UnmarshalJSON inspects; a missing field leaves the struct field at its zero
value. Conditions appear as their tag strings. -/
structure WatchJSON where
  name : Option String
  actionsIds : Option (List Int)
  url : Option String
  statuses : Option (List Int)
  timeout : Option Int
  conditions : Option (List String)
deriving DecidableEq

/-- Default JSON marshalling of a health-check Watch: every tagged field is
emitted, Conditions through their MarshalJSON tags. -/
def marshalHealthWatch (w : HealthWatch) : WatchJSON :=
  { name := some w.name, actionsIds := some w.actionsIds, url := some w.url,
    statuses := some w.statuses, timeout := some w.timeout,
    conditions := some (w.conditions.map conditionTag) }

/-- Watch.UnmarshalJSON (watches/health_check/watch.go): fields present in the
JSON overwrite the zero-valued struct in source order; absent conditions leave
the field empty; an unknown Condition tag is an error. -/
def unmarshalHealthWatch (j : WatchJSON) : Option HealthWatch :=
  let w0 : HealthWatch :=
    { name := "", actionsIds := [], url := "", statuses := [], timeout := 0,
      conditions := [] }
  let w1 := match j.name with | none => w0 | some v => { w0 with name := v }
  let w2 :=
    match j.actionsIds with | none => w1 | some v => { w1 with actionsIds := v }
  let w3 := match j.url with | none => w2 | some v => { w2 with url := v }
  let w4 :=
    match j.statuses with | none => w3 | some v => { w3 with statuses := v }
  let w5 :=
    match j.timeout with | none => w4 | some v => { w4 with timeout := v }
  match j.conditions with
  | none => some w5
  | some tags =>
    (decodeConditionTags tags).map (fun cs => { w5 with conditions := cs })

/-- The two first-level raw-message fields WatchWrapper.UnmarshalJSON looks up
in the decoded JSON map; none models both an absent key and a JSON null. -/
structure EnvelopeJSON where
  typeField : Option String
  watchField : Option WatchJSON
deriving DecidableEq

/-- Possible outcomes of WatchWrapper.UnmarshalJSON: success (with the decoded
Watch when a payload was present), the missing-type error, the unknown-type
error, a payload decode error, or a runtime panic from dereferencing the nil
type raw message. -/
inductive DecodeOutcome where
  | ok (tag : String) (watch : Option HealthWatch)
  | missingTypeError
  | unknownTypeError (tag : String)
  | payloadError
  | panicked
deriving DecidableEq

/-- WatchWrapper.UnmarshalJSON (watches/wrapper/wrapper.go): the missing-type
error fires only when type is absent while watch is present; the function then
dereferences the type raw message unconditionally, so with both fields absent
it panics; with a type and no payload it succeeds early; otherwise it
dispatches on the tag, where only health_check is registered. -/
def watchWrapperUnmarshalJSON (env : EnvelopeJSON) : DecodeOutcome :=
  if env.typeField.isNone && env.watchField.isSome then
    .missingTypeError
  else
    match env.typeField with
    | none => .panicked
    | some t =>
      match env.watchField with
      | none => .ok t none
      | some wj =>
        if t = "health_check" then
          match unmarshalHealthWatch wj with
          | none => .payloadError
          | some w => .ok t (some w)
        else
          .unknownTypeError t

/-- The closed set of Watch variants present in the source; health_check is the
only one. -/
inductive WatchValue where
  | healthCheck (w : HealthWatch)
deriving DecidableEq

/-- Wrapper (watches/wrapper/wrapper.go): map the concrete Watch struct to its
type tag (the source dispatches on the reflected package path, with
health_check the only registered case) and pair it with the Watch. -/
def wrapper : WatchValue → String × WatchValue
  | .healthCheck w => ("health_check", .healthCheck w)

/-- json.Marshal of the WatchWrapper built by Wrapper: a two-field envelope
with the tag and the marshalled Watch payload. -/
def wrapAndMarshal (v : WatchValue) : EnvelopeJSON :=
  { typeField := some (wrapper v).1,
    watchField :=
      some (match (wrapper v).2 with | .healthCheck w => marshalHealthWatch w) }

/-! Trigger SDK (watches/sdk/sdk.go). The HTTP POST is modelled by an explicit
world function from the request to its outcome. -/

/-- Config (watches/sdk/sdk.go). -/
structure SDKConfig where
  baseURL : String
  version : String
deriving DecidableEq

/-- The request URL built by TriggerByID:
BaseURL + "/v" + Version + "/" + strconv.Itoa(id) + "/trigger". -/
def triggerURL (id : Int) (config : SDKConfig) : String :=
  config.baseURL ++ "/v" ++ config.version ++ "/" ++ toString id ++ "/trigger"

/-- The POST request TriggerByID issues: the URL, the application/json content
type, and an empty body. -/
structure HTTPRequest where
  url : String
  contentType : String
  body : String
deriving DecidableEq

/-- Outcome of the client.Post call: a network-level error, or a response with
a status code, headers and a body read that may itself fail. -/
inductive PostOutcome where
  | netError (msg : String)
  | response (statusCode : Int) (headers : String) (bodyRead : Except String String)

/-- Errors TriggerByID can return: the network error passed through, or the
descriptive non-200 error that carries the status, the headers and the body,
with the fallback variant carrying the read error when the body is
unreadable. -/
inductive TriggerError where
  | network (msg : String)
  | non200 (statusCode : Int) (headers : String) (body : String)
  | non200BodyUnreadable (statusCode : Int) (headers : String) (readErr : String)
deriving DecidableEq

/-- TriggerByID (watches/sdk/sdk.go): build the URL, POST an empty body, pass a
network error straight through, succeed on status 200, and otherwise return the
descriptive error (with the fallback when reading the body fails). The request
that was issued is returned alongside for observation. -/
def triggerByID (id : Int) (config : SDKConfig)
    (world : HTTPRequest → PostOutcome) : HTTPRequest × Option TriggerError :=
  let req : HTTPRequest :=
    { url := triggerURL id config, contentType := "application/json", body := "" }
  (req,
   match world req with
   | .netError m => some (.network m)
   | .response code hdrs bodyRead =>
     if code = 200 then
       none
     else
       match bodyRead with
       | .error ioErr => some (.non200BodyUnreadable code hdrs ioErr)
       | .ok b => some (.non200 code hdrs b))

/-- An SDK configuration pointing at a base URL with API version 1. -/
def demoSDKConfig : SDKConfig :=
  { baseURL := "http://api", version := "1" }

/-- A world in which every POST receives a 500 response with readable body. -/
def world500 : HTTPRequest → PostOutcome :=
  fun _ => .response 500 "H" (.ok "oops")

/-! Theorems. -/

/-- Claim C1, counterexample: the due-invariant does not characterise the
result of Search. With the window T1 = 100, T2 = 200, an enabled Schedule that
starts at 250 and stops at 300 (so start > T2, violating the invariant) is
nevertheless returned by the search, because the script takes the union of the
two range queries rather than their intersection, and the schedule is on the
stop side (300 >= 100). -/
theorem search_not_due_invariant_cex :
    futureSchedule ∈ searchLua [futureSchedule] 100 200 ∧
    dueInvariantSpec futureSchedule 100 200 = false := by
  decide

/-- Claim C1, amended: a Schedule is returned by Search if and only if it is a
candidate of the union of the two range queries — its start score is strictly
below T2, or its stop score is at least T1, where an unset boundary is indexed
with score 0 — and it survives the filter: enabled, and last unset or
last + interval < T2. (Stated for stores whose entries have pairwise distinct
ids, as Redis sorted sets guarantee.) -/
theorem search_mem_characterization (store : List Schedule) (t1 t2 : Int)
    (hid : ∀ t ∈ store, ∀ u ∈ store, t.id = u.id → t = u) (s : Schedule) :
    s ∈ searchLua store t1 t2 ↔
      s ∈ store ∧
        (timeToHashField s.start < t2 ∨ t1 ≤ timeToHashField s.stop) ∧
        luaKeep s t2 = true := by
  constructor
  · intro hmem
    rw [searchLua, List.mem_filter] at hmem
    obtain ⟨hu, hkeep⟩ := hmem
    rw [scheduleUnion, List.mem_append] at hu
    rcases hu with hstart | hstop
    · rw [startIndexQuery, List.mem_filter] at hstart
      exact ⟨hstart.1, Or.inl (by simpa using hstart.2), hkeep⟩
    · rw [List.mem_filter] at hstop
      obtain ⟨hstop1, _⟩ := hstop
      rw [stopIndexQuery, List.mem_filter] at hstop1
      exact ⟨hstop1.1, Or.inr (by simpa using hstop1.2), hkeep⟩
  · rintro ⟨hs, hcond, hkeep⟩
    rw [searchLua, List.mem_filter]
    refine ⟨?_, hkeep⟩
    rw [scheduleUnion, List.mem_append]
    by_cases hstart : timeToHashField s.start < t2
    · left
      rw [startIndexQuery, List.mem_filter]
      exact ⟨hs, by simpa using hstart⟩
    · right
      have hstop : t1 ≤ timeToHashField s.stop := by
        rcases hcond with h | h
        · exact absurd h hstart
        · exact h
      rw [List.mem_filter]
      refine ⟨?_, ?_⟩
      · rw [stopIndexQuery, List.mem_filter]
        exact ⟨hs, by simpa using hstop⟩
      · rw [Bool.not_eq_true', List.any_eq_false]
        intro t ht
        rw [startIndexQuery, List.mem_filter] at ht
        intro hbeq
        have hteq : t = s := hid t ht.1 s hs (by simpa using hbeq)
        subst hteq
        exact hstart (by simpa using ht.2)

/-- Claim C1, witness: the characterization applied to a singleton store
containing an enabled, boundary-free Schedule, which the search returns. -/
theorem search_mem_characterization_witness :
    basicSchedule ∈ searchLua [basicSchedule] 100 200 :=
  (search_mem_characterization [basicSchedule] 100 200 (by decide)
    basicSchedule).mpr ⟨by decide, by decide, by decide⟩

/-- Claim C2: a Schedule without a stop time is indexed with stop score 0, so
the stop-side range query ZRANGEBYSCORE stop_index T1 +inf does not return it
whenever T1 > 0, contrary to the claim that a Schedule lacking a boundary is
always included on that boundary's side. Here a due Schedule (enabled, never
triggered, start = 200 = T2, stop unset) is missing from the stop-side set and,
because the start-side query is strict (start < T2 fails at 200), from the
whole search result. The script's own TODO comment flags exactly this gap. -/
theorem unset_stop_excluded_stop_side :
    stopIndexQuery [noStopSchedule] 100 = [] ∧
    searchLua [noStopSchedule] 100 200 = [] ∧
    dueInvariantSpec noStopSchedule 100 200 = true := by
  decide

/-- Claim C3, counterexample: with the window T1 = 100, T2 = 200, the Schedule
with start = 50, stop = 250, interval = 30, enabled, last = 190 is excluded by
the search, not included: the filter removes candidates with
last + interval >= T2, and 190 + 30 = 220 >= 200. -/
theorem search_example_last190_cex :
    searchLua [exampleSchedule190] 100 200 = [] := by
  decide

/-- Claim C3, amended: with T1 = 100, T2 = 200, the example Schedule with
last = 190 is excluded (190 + 30 = 220 >= 200), the same Schedule with
last = 160 is included (160 + 30 = 190 < 200), and a disabled Schedule is never
returned by the search, whatever its other fields and the window. -/
theorem search_example_amended :
    searchLua [exampleSchedule190] 100 200 = [] ∧
    searchLua [exampleSchedule160] 100 200 = [exampleSchedule160] ∧
    ∀ (store : List Schedule) (t1 t2 : Int) (s : Schedule),
      s.enabled = false → s ∉ searchLua store t1 t2 := by
  refine ⟨by decide, by decide, ?_⟩
  intro store t1 t2 s h hmem
  rw [searchLua, List.mem_filter] at hmem
  have hkeep := hmem.2
  rw [luaKeep, h] at hkeep
  simp at hkeep

/-- Claim C3, witness: the disabled-exclusion part applied to a concrete
disabled Schedule inside its own window. -/
theorem search_example_amended_witness :
    disabledSchedule.enabled = false ∧
    disabledSchedule ∉ searchLua [disabledSchedule] 100 200 :=
  ⟨by decide,
   search_example_amended.2.2 [disabledSchedule] 100 200 disabledSchedule
     (by decide)⟩

/-- The Condition tag round trip used by the wrapper round-trip proof. -/
theorem decodeConditionTags_map (cs : List Condition) :
    decodeConditionTags (cs.map conditionTag) = some cs := by
  induction cs with
  | nil => rfl
  | cons c rest ih =>
    cases c <;> simp [decodeConditionTags, conditionTag, conditionFromTag, ih]

/-- Unmarshalling a marshalled health-check Watch recovers every externally
observable field. -/
theorem unmarshal_marshal (w : HealthWatch) :
    unmarshalHealthWatch (marshalHealthWatch w) = some w := by
  cases w with
  | mk n a u st ti co =>
    simp [unmarshalHealthWatch, marshalHealthWatch, decodeConditionTags_map]

/-- Claim C4: for the registered health_check tag, decoding the wrapped
encoding of a Watch succeeds with the tag and a Watch equal to the original in
its externally observable fields; decoding an envelope carrying a payload under
an unregistered tag yields the unknown-type error; and decoding a payload with
no type tag yields the missing-type error. -/
theorem wrapper_roundtrip_and_errors :
    (∀ hw : HealthWatch,
      watchWrapperUnmarshalJSON (wrapAndMarshal (.healthCheck hw)) =
        .ok "health_check" (some hw)) ∧
    (∀ (t : String) (wj : WatchJSON), t ≠ "health_check" →
      watchWrapperUnmarshalJSON { typeField := some t, watchField := some wj } =
        .unknownTypeError t) ∧
    (∀ wj : WatchJSON,
      watchWrapperUnmarshalJSON { typeField := none, watchField := some wj } =
        .missingTypeError) := by
  refine ⟨?_, ?_, ?_⟩
  · intro hw
    show watchWrapperUnmarshalJSON
      { typeField := some "health_check",
        watchField := some (marshalHealthWatch hw) } = _
    simp [watchWrapperUnmarshalJSON, unmarshal_marshal]
  · intro t wj h
    simp [watchWrapperUnmarshalJSON, h]
  · intro wj
    rfl

/-- Claim C4, witness: an envelope tagged chat_message (unregistered in the
Watch wrapper) is rejected with the unknown-type error. -/
theorem wrapper_roundtrip_and_errors_witness :
    watchWrapperUnmarshalJSON
      { typeField := some "chat_message",
        watchField := some (marshalHealthWatch demoWatch) } =
      .unknownTypeError "chat_message" :=
  wrapper_roundtrip_and_errors.2.1 "chat_message" (marshalHealthWatch demoWatch)
    (by decide)

/-- Claim C5: encoding a Schedule whose WatchesIDs list is empty stores the
empty string in the watches_ids field; decoding splits that empty string into
one empty piece whose Atoi fails, so the round trip errors out instead of
returning the Schedule. The second conjunct is the positive control: a fully
populated Schedule round-trips (modulo the id, which is not stored as a hash
field and decodes to the zero value). -/
theorem hash_roundtrip_empty_ids_fails :
    fromHashFields (toHashFields emptyWatchesSchedule) = none ∧
    fromHashFields (toHashFields richSchedule) =
      some { richSchedule with id := 0 } := by
  exact ⟨by decide, by decide⟩

/-- Claim C6: Condition evaluation is the short-circuit conjunction over the
Watch's Conditions: an empty list passes vacuously, a failing head decides the
result whatever the tail, and the result agrees with the full conjunction.
ConditionSuccess holds exactly on status success and ConditionFailure exactly
on any other status; and Watch.Do returns the configured ActionsIds when
evaluation succeeds and the empty list when it fails. -/
theorem watch_evaluation_contract :
    (∀ r : Result, evaluate [] r = true) ∧
    (∀ (c : Condition) (cs : List Condition) (r : Result),
      conditionDo c r = false → evaluate (c :: cs) r = false) ∧
    (∀ (conds : List Condition) (r : Result),
      evaluate conds r = conds.all (fun c => conditionDo c r)) ∧
    (∀ r : Result, conditionDo .success r = (r.status == "success")) ∧
    (∀ r : Result, conditionDo .failure r = (r.status != "success")) ∧
    (∀ (w : HealthWatch) (httpStatus : Option Int),
      (evaluate w.conditions (dataResult httpStatus w.statuses) = true →
        watchDo w httpStatus = w.actionsIds) ∧
      (evaluate w.conditions (dataResult httpStatus w.statuses) = false →
        watchDo w httpStatus = [])) := by
  refine ⟨fun r => rfl, ?_, ?_, fun r => rfl, fun r => rfl, ?_⟩
  · intro c cs r h
    rw [evaluate, if_neg]
    simp [h]
  · intro conds r
    induction conds with
    | nil => rfl
    | cons c rest ih =>
      cases h : conditionDo c r <;> simp [evaluate, h, ih]
  · intro w httpStatus
    constructor
    · intro h
      rw [watchDo, if_pos h]
    · intro h
      rw [watchDo, if_neg]
      simp [h]

/-- Claim C6, witness: a success Condition fails on an inaccessible Result, and
a Watch expecting status 200 that receives 500 returns no Action IDs. -/
theorem watch_evaluation_contract_witness :
    evaluate [Condition.success] { status := "inaccessible" } = false ∧
    watchDo demoWatch (some 500) = [] :=
  ⟨watch_evaluation_contract.2.1 .success [] { status := "inaccessible" }
     (by decide),
   (watch_evaluation_contract.2.2.2.2.2 demoWatch (some 500)).2 (by decide)⟩

/-- The id generated over an index containing x is strictly greater than x. -/
theorem generateID_cons_gt (x : Int) (l : List Int) : x < generateID (x :: l) := by
  show x < match indexMax (x :: l) with | none => 1 | some m => m + 1
  have hx : indexMax (x :: l) =
      match indexMax l with
      | none => some x
      | some m => some (max x m) := rfl
  rw [hx]
  cases indexMax l with
  | none =>
    show x < x + 1
    omega
  | some m =>
    show x < max x m + 1
    have := le_max_left x m
    omega

/-- Claim C7: an empty id index yields id 1 and sequential creates yield
strictly increasing ids, but the read-then-increment is not atomic: in the
interleaving where two concurrent Create calls both read the id index before
either writes, both calls generate the same id — on an empty store both
Schedules get id 1, a duplicate. -/
theorem generateID_sequential_and_race :
    generateID [] = 1 ∧
    (∀ index : List Int,
      (createStep index).1 < (createStep (createStep index).2).1) ∧
    concurrentCreateIDs [] = (1, 1) := by
  refine ⟨rfl, ?_, rfl⟩
  intro index
  show generateID index < generateID (generateID index :: index)
  exact generateID_cons_gt (generateID index) index

/-- Claim C8, counterexample: Schedule.Do re-validates only the start/stop
window; a Schedule that is disabled but inside its window still returns its
Watch IDs, so the filter stage does not guard against a Schedule having become
disabled. -/
theorem scheduleDo_disabled_dispatch_cex :
    disabledInWindow.enabled = false ∧
    scheduleDo disabledInWindow 100 = [7] := by
  decide

/-- Claim C8, amended: Schedule.Do re-validates the temporal window at the
moment of filtering — it returns the WatchesIDs when now is strictly after the
start (when set) and strictly before the stop (when set), and the empty list as
soon as either bound is violated — but it does not consult the enabled flag, so
only out-of-window races are guarded against. -/
theorem scheduleDo_window_revalidation (s : Schedule) (now : Int) :
    ((s.start = none ∨ ∃ t, s.start = some t ∧ t < now) →
     (s.stop = none ∨ ∃ u, s.stop = some u ∧ now < u) →
     scheduleDo s now = s.watchesIDs) ∧
    ((∃ t, s.start = some t ∧ now ≤ t) → scheduleDo s now = []) ∧
    ((∃ u, s.stop = some u ∧ u ≤ now) → scheduleDo s now = []) := by
  refine ⟨?_, ?_, ?_⟩
  · intro h1 h2
    rw [scheduleDo, if_pos]
    rw [Bool.and_eq_true]
    constructor
    · rw [afterStart]
      rcases h1 with h | ⟨t, ht, hlt⟩
      · rw [h]
      · rw [ht]
        simpa using hlt
    · rw [beforeEnd]
      rcases h2 with h | ⟨u, hu, hlt⟩
      · rw [h]
      · rw [hu]
        simpa using hlt
  · rintro ⟨t, ht, hle⟩
    rw [scheduleDo, if_neg]
    rw [Bool.and_eq_true]
    rintro ⟨ha, _⟩
    rw [afterStart, ht] at ha
    simp at ha
    omega
  · rintro ⟨u, hu, hle⟩
    rw [scheduleDo, if_neg]
    rw [Bool.and_eq_true]
    rintro ⟨_, hb⟩
    rw [beforeEnd, hu] at hb
    simp at hb
    omega

/-- Claim C8, witness: a Schedule with window [50, 250] and Watch 7 is
dispatched at time 100 and suppressed at time 300. -/
theorem scheduleDo_window_revalidation_witness :
    scheduleDo windowSchedule 100 = [7] ∧ scheduleDo windowSchedule 300 = [] :=
  ⟨(scheduleDo_window_revalidation windowSchedule 100).1
     (Or.inr ⟨50, by decide, by decide⟩) (Or.inr ⟨250, by decide, by decide⟩),
   (scheduleDo_window_revalidation windowSchedule 300).2.2
     ⟨250, by decide, by decide⟩⟩

/-- Claim C9: TriggerByID posts an empty body to
baseURL/v(version)/(id)/trigger with the application/json content type, and
returns no error exactly when the call completes with status 200; a
network-level failure is returned directly, a non-200 response with a readable
body yields the descriptive error carrying the status, headers and body, and a
non-200 response whose body read fails yields the fallback error. -/
theorem triggerByID_contract (id : Int) (config : SDKConfig)
    (world : HTTPRequest → PostOutcome) :
    (triggerByID id config world).1 =
      { url := config.baseURL ++ "/v" ++ config.version ++ "/" ++
          toString id ++ "/trigger",
        contentType := "application/json", body := "" } ∧
    ((triggerByID id config world).2 = none ↔
      ∃ hdrs bodyRead,
        world (triggerByID id config world).1 = .response 200 hdrs bodyRead) ∧
    (∀ m, world (triggerByID id config world).1 = .netError m →
      (triggerByID id config world).2 = some (.network m)) ∧
    (∀ code hdrs b, code ≠ 200 →
      world (triggerByID id config world).1 = .response code hdrs (.ok b) →
      (triggerByID id config world).2 = some (.non200 code hdrs b)) ∧
    (∀ code hdrs ioErr, code ≠ 200 →
      world (triggerByID id config world).1 = .response code hdrs (.error ioErr) →
      (triggerByID id config world).2 =
        some (.non200BodyUnreadable code hdrs ioErr)) := by
  have h1 : (triggerByID id config world).1 =
      { url := triggerURL id config, contentType := "application/json",
        body := "" } := rfl
  have h2 : (triggerByID id config world).2 =
      match world (triggerByID id config world).1 with
      | .netError m => some (.network m)
      | .response code hdrs bodyRead =>
        if code = 200 then none
        else
          match bodyRead with
          | .error ioErr => some (.non200BodyUnreadable code hdrs ioErr)
          | .ok b => some (.non200 code hdrs b) := rfl
  refine ⟨h1, ?_, ?_, ?_, ?_⟩
  · rw [h2]
    cases hw : world (triggerByID id config world).1 with
    | netError m => simp
    | response code hdrs bodyRead =>
      by_cases hc : code = 200
      · subst hc
        simp
      · cases bodyRead <;> simp [hc]
  · intro m hw
    rw [h2, hw]
  · intro code hdrs b hc hw
    rw [h2, hw]
    simp [hc]
  · intro code hdrs ioErr hc hw
    rw [h2, hw]
    simp [hc]

/-- Claim C9, witness: triggering Watch 3 against a world that answers 500
with a readable body produces the descriptive non-200 error. -/
theorem triggerByID_contract_witness :
    (triggerByID 3 demoSDKConfig world500).2 = some (.non200 500 "H" "oops") :=
  (triggerByID_contract 3 demoSDKConfig world500).2.2.2.1 500 "H" "oops"
    (by decide) rfl

/-- Claim C10: on an envelope with neither a type nor a watch field (such as
the JSON object with no fields) WatchWrapper.UnmarshalJSON panics by
dereferencing the nil type raw message — it neither succeeds nor returns an
error — because the missing-type branch fires only when the type is absent
while the watch payload is present. -/
theorem wrapper_missing_both_panics :
    watchWrapperUnmarshalJSON { typeField := none, watchField := none } =
      .panicked ∧
    ∀ env : EnvelopeJSON,
      watchWrapperUnmarshalJSON env = .missingTypeError ↔
        env.typeField = none ∧ env.watchField ≠ none := by
  constructor
  · rfl
  · intro env
    cases env with
    | mk tf wf =>
      cases tf with
      | none =>
        cases wf with
        | none => simp [watchWrapperUnmarshalJSON]
        | some wj => simp [watchWrapperUnmarshalJSON]
      | some t =>
        cases wf with
        | none => simp [watchWrapperUnmarshalJSON]
        | some wj =>
          by_cases ht : t = "health_check"
          · simp only [watchWrapperUnmarshalJSON, ht]
            cases unmarshalHealthWatch wj <;> simp
          · simp [watchWrapperUnmarshalJSON, ht]

end MantisShrimp
